import Mathlib

/-!
Shallow embedding of the Cerelia capacity/demand simulation engine
(src/simulation/models.py and src/simulation/services.py).

Dates are integers counting days since 1970-01-01 (a Thursday), so that
`weekday d = (d + 3) % 7` matches Python's `date.weekday()`
(0 = Monday, ..., 6 = Sunday).  Decimal quantities are modelled as `ℚ`.
-/

namespace Cerelia

/-- Python `date.weekday()`: 0 = Monday ... 6 = Sunday (1970-01-01 is a Thursday). -/
def weekday (d : ℤ) : ℤ := (d + 3) % 7

/-- Embeds `get_week_start` (services.py): the Monday of the week containing `d`. -/
def get_week_start (d : ℤ) : ℤ := d - weekday d

/-- Embeds `get_weeks_in_range` (services.py): Monday-aligned week starts from the
Monday of `start_date`'s week while the current Monday is at most `end_date`. -/
def get_weeks_in_range (start_date end_date : ℤ) : List ℤ :=
  let first := get_week_start start_date
  if first ≤ end_date then
    (List.range ((end_date - first).toNat / 7 + 1)).map (fun i => first + 7 * (i : ℤ))
  else []

/-- Embeds `get_days_in_range` (services.py): every day in `[start_date, end_date]`. -/
def get_days_in_range (start_date end_date : ℤ) : List ℤ :=
  if start_date ≤ end_date then
    (List.range ((end_date - start_date).toNat + 1)).map (fun i => start_date + (i : ℤ))
  else []

/-- Civil (proleptic Gregorian) date from a day count, Hinnant's algorithm;
used to embed Python's `date.year`. Returns (year, month, day). -/
def civilFromDays (z : ℤ) : ℤ × ℕ × ℕ :=
  let zz := z + 719468
  let era : ℤ := Int.fdiv zz 146097
  let doe : ℕ := (zz - era * 146097).toNat
  let yoe : ℕ := (doe - doe / 1460 + doe / 36524 - doe / 146096) / 365
  let doy : ℕ := doe - (365 * yoe + yoe / 4 - yoe / 100)
  let mp : ℕ := (5 * doy + 2) / 153
  let dd : ℕ := doy - (153 * mp + 2) / 5 + 1
  let mm : ℕ := if mp < 10 then mp + 3 else mp - 9
  ((yoe : ℤ) + era * 400 + (if mm ≤ 2 then 1 else 0), mm, dd)

/-- Day count of a civil (proleptic Gregorian) date, Hinnant's algorithm. -/
def daysFromCivil (y : ℤ) (m d : ℕ) : ℤ :=
  let yy := y - (if m ≤ 2 then 1 else 0)
  let era : ℤ := Int.fdiv yy 400
  let yoe : ℕ := (yy - era * 400).toNat
  let mp : ℕ := if 2 < m then m - 3 else m + 9
  let doy : ℕ := (153 * mp + 2) / 5 + d - 1
  let doe : ℕ := yoe * 365 + yoe / 4 - yoe / 100 + doy
  era * 146097 + (doe : ℤ) - 719468

/-- Embeds Python `date.year`. -/
def yearOf (d : ℤ) : ℤ := (civilFromDays d).1

/-- Embeds Python `date.isocalendar()[1]`: the ISO week number, computed from the
Thursday of `d`'s week. -/
def isoWeekOf (d : ℤ) : ℕ :=
  let thursday := d - weekday d + 3
  ((thursday - daysFromCivil (yearOf thursday) 1 1).toNat / 7) + 1

/-- Embeds `ShiftConfiguration` (models.py). -/
structure ShiftConfiguration where
  shifts_per_day : ℕ
  hours_per_shift : ℚ
  days_per_week : ℕ
  includes_saturday : Bool
  includes_sunday : Bool
deriving DecidableEq

/-- Embeds `ShiftConfiguration.weekly_hours` (models.py line 39-41). -/
def ShiftConfiguration.weekly_hours (c : ShiftConfiguration) : ℚ :=
  (c.shifts_per_day : ℚ) * c.hours_per_shift * (c.days_per_week : ℚ)

/-- Embeds `LineConfigOverride` (models.py); only the fields the engine reads.
The prefetched override lists below are the active (`is_active=True`) overrides. -/
structure LineConfigOverride where
  start_date : ℤ
  end_date : ℤ
  shifts_per_day : ℕ
  hours_per_shift : ℚ
  days_per_week : ℕ
  include_saturday : Bool
  include_sunday : Bool
  is_recurrent : Bool
  recurrence_weeks : Option ℕ
deriving DecidableEq

/-- Embeds `LineConfigOverride.weekly_hours` (models.py line 261-264). -/
def LineConfigOverride.weekly_hours (o : LineConfigOverride) : ℚ :=
  (o.shifts_per_day : ℚ) * o.hours_per_shift * (o.days_per_week : ℚ)

/-- Embeds `ProductionLine` (models.py) together with its prefetched active
overrides (services.py `_get_lines_with_configs` orders them by `start_date`). -/
structure ProductionLine where
  base_capacity_per_hour : ℚ
  efficiency_factor : ℚ
  default_shift_config : Option ShiftConfiguration
  overrides : List LineConfigOverride
deriving DecidableEq

/-- Recurrence guard of `_get_config_for_date_from_prefetched` (services.py
lines 113-118): a recurrent override with a nonzero period `k` is valid on
`target_date` only when `((target_date - start_date).days // 7) % k == 0`
(Python floor division and nonnegative modulus). -/
def recurrenceOk (o : LineConfigOverride) (d : ℤ) : Bool :=
  match o.is_recurrent, o.recurrence_weeks with
  | true, some k =>
      decide (k = 0) || decide ((Int.fdiv (d - o.start_date) 7).emod (k : ℤ) = 0)
  | _, _ => true

/-- An override is accepted for `d` when its interval contains `d` and the
recurrence guard passes (services.py lines 111-118). -/
def overrideAccepts (o : LineConfigOverride) (d : ℤ) : Bool :=
  decide (o.start_date ≤ d) && decide (d ≤ o.end_date) && recurrenceOk o d

/-- Source tag of a resolved configuration (the `'type'` key of the dict). -/
inductive ConfigSource where
  | fromOverride
  | fromDefault
deriving DecidableEq

/-- Resolved configuration dict returned by
`_get_config_for_date_from_prefetched` (services.py lines 120-144). -/
structure ResolvedConfig where
  source : ConfigSource
  shifts_per_day : ℕ
  hours_per_shift : ℚ
  days_per_week : ℕ
  include_saturday : Bool
  include_sunday : Bool
  weekly_hours : ℚ
deriving DecidableEq

/-- Resolved-config dict built from an accepted override (services.py 120-130). -/
def resolvedOfOverride (o : LineConfigOverride) : ResolvedConfig :=
  { source := ConfigSource.fromOverride
    shifts_per_day := o.shifts_per_day
    hours_per_shift := o.hours_per_shift
    days_per_week := o.days_per_week
    include_saturday := o.include_saturday
    include_sunday := o.include_sunday
    weekly_hours := o.weekly_hours }

/-- Resolved-config dict built from the line's default configuration
(services.py lines 133-144; note `days_per_week` is recomputed as
`5 + saturday + sunday` there). -/
def defaultResolved (line : ProductionLine) : Option ResolvedConfig :=
  match line.default_shift_config with
  | some c =>
      some { source := ConfigSource.fromDefault
             shifts_per_day := c.shifts_per_day
             hours_per_shift := c.hours_per_shift
             days_per_week :=
               5 + (if c.includes_saturday then 1 else 0) +
                 (if c.includes_sunday then 1 else 0)
             include_saturday := c.includes_saturday
             include_sunday := c.includes_sunday
             weekly_hours := c.weekly_hours }
  | none => none

/-- Embeds `_get_config_for_date_from_prefetched` (services.py lines 104-145):
scan the prefetched overrides in list order, return the first accepted one;
otherwise fall back to the default configuration; otherwise `none`. -/
def getConfigFromPrefetched (line : ProductionLine) (d : ℤ) :
    List LineConfigOverride → Option ResolvedConfig
  | [] => defaultResolved line
  | o :: rest =>
      if overrideAccepts o d then some (resolvedOfOverride o)
      else getConfigFromPrefetched line d rest

/-- Configuration resolution for a line at a date, over its own prefetched
overrides (also embeds `ProductionLine.get_config_for_date`, models.py 107-157,
whose scan order is likewise ascending by `start_date`). -/
def getConfigForDate (line : ProductionLine) (d : ℤ) : Option ResolvedConfig :=
  getConfigFromPrefetched line d line.overrides

/-- Embeds `ProductionLine.get_weekly_capacity` with an explicit shift
configuration (models.py lines 170-175). -/
def ProductionLine.get_weekly_capacity_with_config
    (line : ProductionLine) (c : ShiftConfiguration) : ℚ :=
  line.base_capacity_per_hour * line.efficiency_factor * c.weekly_hours

/-- Embeds `ProductionLine.get_weekly_capacity(for_date=...)` (models.py lines
163-175): use the date-resolved configuration; when resolution fails the line
has no default configuration either, so the result is 0. -/
def ProductionLine.get_weekly_capacity_for_date
    (line : ProductionLine) (d : ℤ) : ℚ :=
  match getConfigForDate line d with
  | some cfg => line.base_capacity_per_hour * line.efficiency_factor * cfg.weekly_hours
  | none => 0

/-- One selected line in a simulation: the line plus the UI-forced shift
configuration, if any (`shift_configs` dict in services.py; `none` means
date-based resolution, covering both `use_override` and a missing forced id). -/
structure LineSpec where
  line : ProductionLine
  uiConfig : Option ShiftConfiguration
deriving DecidableEq

/-- Per-line part of `calculate_weekly_capacity` (services.py lines 325-344). -/
def lineWeeklyCapacity (ls : LineSpec) (d : ℤ) : ℚ :=
  match ls.uiConfig with
  | some c => ls.line.get_weekly_capacity_with_config c
  | none => ls.line.get_weekly_capacity_for_date d

/-- Embeds `calculate_weekly_capacity` (services.py lines 305-346): sum over
the selected (active, fetched) lines. -/
def calculate_weekly_capacity (lines : List LineSpec) (d : ℤ) : ℚ :=
  (lines.map (fun ls => lineWeeklyCapacity ls d)).sum

/-- Per-line part of `calculate_daily_capacity` (services.py lines 190-238):
resolve a configuration (UI-forced or date-based; if neither, the line is
skipped), zero out non-working weekend days, otherwise
`base_capacity_per_hour * (shifts_per_day * hours_per_shift) * efficiency`. -/
def lineDailyCapacity (ls : LineSpec) (d : ℤ) : ℚ :=
  let cfg : Option (ℕ × ℚ × Bool × Bool) :=
    match ls.uiConfig with
    | some c => some (c.shifts_per_day, c.hours_per_shift, c.includes_saturday, c.includes_sunday)
    | none =>
        match getConfigForDate ls.line d with
        | some rc => some (rc.shifts_per_day, rc.hours_per_shift, rc.include_saturday, rc.include_sunday)
        | none => none
  match cfg with
  | none => 0
  | some (s, h, sat, sun) =>
      if (weekday d = 5 ∧ sat = false) ∨ (weekday d = 6 ∧ sun = false) then 0
      else ls.line.base_capacity_per_hour * ((s : ℚ) * h) * ls.line.efficiency_factor

/-- Embeds `calculate_daily_capacity` (services.py lines 169-240). -/
def calculate_daily_capacity (lines : List LineSpec) (d : ℤ) : ℚ :=
  (lines.map (fun ls => lineDailyCapacity ls d)).sum

/-- Weekly bucket capacity: `calculate_capacity_per_week` (services.py lines
349-378) probes the single date `week_start + 3` for each week bucket. -/
def weekBucketCapacity (lines : List LineSpec) (week_start : ℤ) : ℚ :=
  calculate_weekly_capacity lines (week_start + 3)

/-- Embeds `calculate_capacity_per_week` (services.py lines 349-378). -/
def calculate_capacity_per_week (lines : List LineSpec) (weeks : List ℤ) :
    List (ℤ × ℚ) :=
  weeks.map (fun w => (w, weekBucketCapacity lines w))

/-- True when a resolved configuration came from an override. -/
def configIsOverride (rc : Option ResolvedConfig) : Bool :=
  match rc with
  | some cfg => match cfg.source with
    | ConfigSource.fromOverride => true
    | ConfigSource.fromDefault => false
  | none => false

/-- The `has_override` flag of a weekly data point (`_run_line_simulation_weekly`,
services.py lines 858-870): any line whose date-based configuration at the probe
date `week_start + 3` comes from an override. -/
def weekHasOverride (lines : List LineSpec) (week_start : ℤ) : Bool :=
  lines.any (fun ls => configIsOverride (getConfigForDate ls.line (week_start + 3)))

/-- Embeds one `DemandForecast` row (models.py lines 484-527). -/
structure DemandForecast where
  client_id : ℕ
  product_id : ℕ
  week_start_date : ℤ
  forecast_quantity : ℚ
deriving DecidableEq

/-- Demand dicts (`week_start -> demand` or `date -> demand`), modelled as
association lists with Python-dict get/contains/set semantics. -/
abbrev DemandMap := List (ℤ × ℚ)

/-- `demand_data.get(d, 0)`. -/
def dmGet (m : DemandMap) (d : ℤ) : ℚ :=
  match m.find? (fun p => decide (p.1 = d)) with
  | some p => p.2
  | none => 0

/-- `d in demand_data`. -/
def dmContains (m : DemandMap) (d : ℤ) : Bool :=
  m.any (fun p => decide (p.1 = d))

/-- `demand_data[d] = v` (update in place, or append a new key). -/
def dmSet (m : DemandMap) (d : ℤ) (v : ℚ) : DemandMap :=
  if dmContains m d then m.map (fun p => if p.1 = d then (d, v) else p)
  else m ++ [(d, v)]

/-- Sum of the forecast quantities of a list of rows. -/
def sumForecasts (fs : List DemandForecast) : ℚ :=
  (fs.map (fun f => f.forecast_quantity)).sum

/-- The `values('week_start_date').annotate(total_demand=Sum(...))` grouping:
one `(week_start, total)` pair per distinct week among the rows. -/
def groupDemandByWeek (fs : List DemandForecast) : DemandMap :=
  ((fs.map (fun f => f.week_start_date)).dedup).map
    (fun w => (w, sumForecasts (fs.filter (fun f => decide (f.week_start_date = w)))))

/-- Embeds `get_demand_for_lines` (services.py lines 420-460): sum forecasts of
the products whose default line is in the selected set, per week, optionally
restricted to one client; an empty product set gives an empty dict. -/
def get_demand_for_lines (forecasts : List DemandForecast) (productIds : List ℕ)
    (week_start week_end : ℤ) (clientId : Option ℕ) : DemandMap :=
  if productIds.isEmpty then []
  else
    groupDemandByWeek (forecasts.filter (fun f =>
      productIds.contains f.product_id
        && decide (week_start ≤ f.week_start_date)
        && decide (f.week_start_date ≤ week_end)
        && (match clientId with
            | some c => decide (f.client_id = c)
            | none => true)))

/-- One day assignment of `get_demand_for_lines_daily` (services.py lines
284-286): `daily_demand[day] = total_weekly / 5` when the day is in range. -/
def distributeDay (start_date end_date : ℤ) (total : ℚ) (dm : DemandMap)
    (day : ℤ) : DemandMap :=
  if start_date ≤ day ∧ day ≤ end_date then dmSet dm day (total / 5) else dm

/-- The inner loop of `get_demand_for_lines_daily` (services.py lines 283-286):
assign one week's total to the offsets 0..4 from its Monday (Mon-Fri). -/
def distributeWeek (start_date end_date : ℤ) (dm : DemandMap)
    (wt : ℤ × ℚ) : DemandMap :=
  (List.range 5).foldl
    (fun dm off => distributeDay start_date end_date wt.2 dm (wt.1 + (off : ℤ))) dm

/-- Embeds `get_demand_for_lines_daily`'s distribution loop (services.py lines
279-288): each week's total is assigned as `total / 5` to the five days
`week_start .. week_start + 4` that fall inside `[start_date, end_date]`. -/
def distributeWeeklyDemandDaily (weekly : DemandMap) (start_date end_date : ℤ) :
    DemandMap :=
  weekly.foldl (distributeWeek start_date end_date) []

/-- Embeds one entry of the `demand_modifications` list (services.py docstring
at lines 525-533). -/
structure DemandModification where
  client_id : ℕ
  product_id : Option ℕ
  start_date : ℤ
  end_date : ℤ
  percentage : ℚ
deriving DecidableEq

/-- Rows matched by a modification's forecast query (services.py lines 563-583):
the modification's client, weeks from the Monday of its start to its end date,
and either its explicit product or any product valid for the selected lines. -/
def modAffectedForecasts (forecasts : List DemandForecast) (validProductIds : List ℕ)
    (m : DemandModification) : List DemandForecast :=
  forecasts.filter (fun f =>
    decide (f.client_id = m.client_id)
      && decide (get_week_start m.start_date ≤ f.week_start_date)
      && decide (f.week_start_date ≤ m.end_date)
      && (match m.product_id with
          | some p => decide (f.product_id = p)
          | none => validProductIds.contains f.product_id))

/-- Per-week raw totals of the rows a modification affects. -/
def modAffectedWeeks (forecasts : List DemandForecast) (validProductIds : List ℕ)
    (m : DemandModification) : DemandMap :=
  groupDemandByWeek (modAffectedForecasts forecasts validProductIds m)

/-- One bucket update of the demand modifier: add the modification amount, then
floor the bucket at zero (services.py lines 597-600 and 669-671). -/
def modifyBucket (current amount : ℚ) : ℚ :=
  if current + amount < 0 then 0 else current + amount

/-- Embeds `apply_demand_modifications_weekly` (services.py lines 519-602):
for each modification in order, add `raw_week_total * percentage / 100` to every
affected week that lies in the simulation's week list, clamping at zero after
each addition.  Missing weeks are initialised to zero (`dmGet` default). -/
def apply_demand_modifications_weekly (forecasts : List DemandForecast)
    (validProductIds : List ℕ) (weeks : List ℤ) (demand : DemandMap)
    (mods : List DemandModification) : DemandMap :=
  mods.foldl (fun dm m =>
    (modAffectedWeeks forecasts validProductIds m).foldl (fun dm wt =>
      if weeks.contains wt.1 then
        dmSet dm wt.1 (modifyBucket (dmGet dm wt.1) (wt.2 * (m.percentage / 100)))
      else dm) dm) demand

/-- Embeds `apply_demand_modifications_daily` (services.py lines 605-673):
the weekly modification amount is split over 5 weekdays; a day is updated only
when it lies within the modification's own date bounds and is already a key of
the demand dict, clamping at zero after each addition. -/
def apply_demand_modifications_daily (forecasts : List DemandForecast)
    (validProductIds : List ℕ) (demand : DemandMap)
    (mods : List DemandModification) : DemandMap :=
  mods.foldl (fun dm m =>
    (modAffectedWeeks forecasts validProductIds m).foldl (fun dm wt =>
      let dailyMod := wt.2 * (m.percentage / 100) / 5
      (List.range 5).foldl (fun dm off =>
        let day := wt.1 + (off : ℤ)
        if m.start_date ≤ day ∧ day ≤ m.end_date ∧ dmContains dm day = true then
          dmSet dm day (modifyBucket (dmGet dm day) dailyMod)
        else dm) dm) dm) demand

/-- Per-bucket utilization at weekly granularity and in the category, new-client,
lost-client and lab simulations (services.py lines 849-852, 1115-1118, 1209-1214,
1610-1613, 1864-1867, 1972-1975): `demand / capacity * 100` when capacity is
positive, otherwise `0`. -/
def utilizationWeekly (demand capacity : ℚ) : ℚ :=
  if 0 < capacity then demand / capacity * 100 else 0

/-- Per-bucket utilization of `_run_line_simulation_daily` (services.py lines
996-999): `demand / capacity * 100` when capacity is positive, otherwise `0`
for zero demand and the sentinel `999` for positive demand. -/
def utilizationDaily (demand capacity : ℚ) : ℚ :=
  if 0 < capacity then demand / capacity * 100
  else if demand = 0 then 0 else 999

/-- `over_capacity` flag of a data point: utilization strictly above 100. -/
def overCapacity (u : ℚ) : Bool := decide (100 < u)

/-- Python `sum(xs) / len(xs) if xs else 0`. -/
def listAverage (us : List ℚ) : ℚ :=
  if us.length = 0 then 0 else us.sum / (us.length : ℚ)

/-- Python `max(xs) if xs else 0`. -/
def listPeak (us : List ℚ) : ℚ :=
  match us with
  | [] => 0
  | u :: rest => rest.foldl max u

/-- Daily summary filter (services.py line 1039): keep utilizations below 999. -/
def validDailyUtilizations (us : List ℚ) : List ℚ :=
  us.filter (fun u => decide (u < 999))

/-- Average utilization of the daily line simulation (services.py 1039-1040). -/
def dailyAverageUtilization (us : List ℚ) : ℚ :=
  listAverage (validDailyUtilizations us)

/-- Peak utilization of the daily line simulation (services.py line 1041). -/
def dailyPeakUtilization (us : List ℚ) : ℚ :=
  listPeak (validDailyUtilizations us)

/-- Average utilization of the weekly line simulation (services.py line 888):
computed over all buckets, without any sentinel filtering. -/
def weeklyAverageUtilization (us : List ℚ) : ℚ := listAverage us

/-- Peak utilization of the weekly line simulation (services.py line 889). -/
def weeklyPeakUtilization (us : List ℚ) : ℚ := listPeak us

/-- Round to the nearest integer, ties to even — the rounding Python's `round`
applies to `Decimal` values. -/
def roundNearestEven (x : ℚ) : ℤ :=
  let f := Int.floor x
  let r := x - (f : ℚ)
  if r < 1 / 2 then f
  else if 1 / 2 < r then f + 1
  else if f % 2 = 0 then f else f + 1

/-- Python `round(x, 1)` on a `Decimal`. -/
def round1 (x : ℚ) : ℚ := (roundNearestEven (x * 10) : ℚ) / 10

/-- Seasonality key: (ISO week number, calendar year of the week's Monday). -/
abbrev SeasonalKey := ℕ × ℤ

/-- `weekly_proportions.get((week_num, year))` (services.py line 1407). -/
def lookupProportion (props : List (SeasonalKey × ℚ)) (wk : ℕ) (yr : ℤ) : Option ℚ :=
  match props.find? (fun p => decide (p.1 = (wk, yr))) with
  | some p => some p.2
  | none => none

/-- The fallback loop `for past_year in range(year - 1, year - 5, -1)`
(services.py lines 1409-1414): first hit among the four preceding years. -/
def fallbackProportion (props : List (SeasonalKey × ℚ)) (wk : ℕ) (yr : ℤ) : Option ℚ :=
  ((List.range 4).map (fun i => yr - 1 - (i : ℤ))).findSome?
    (fun y => lookupProportion props wk y)

/-- Resolved proportion for a target week (services.py lines 1406-1418):
exact (week, year) hit, else the four-year fallback, else `1 / 52`. -/
def resolveProportion (props : List (SeasonalKey × ℚ)) (wk : ℕ) (yr : ℤ) : ℚ :=
  match lookupProportion props wk yr with
  | some p => p
  | none =>
      match fallbackProportion props wk yr with
      | some p => p
      | none => 1 / 52

/-- Yearly total of a reference product's forecast rows (services.py 1383-1388),
rows being `(week_start_date, total)` pairs. -/
def yearlyTotal (rows : List (ℤ × ℚ)) (yr : ℤ) : ℚ :=
  ((rows.filter (fun r => decide (yearOf r.1 = yr))).map (fun r => r.2)).sum

/-- The reference product's weekly share map (services.py lines 1390-1398):
for each row, `total / yearly_total` keyed by (ISO week, year), kept only when
the yearly total is positive. -/
def weeklyProportions (rows : List (ℤ × ℚ)) : List (SeasonalKey × ℚ) :=
  rows.filterMap (fun r =>
    if 0 < yearlyTotal rows (yearOf r.1) then
      some ((isoWeekOf r.1, yearOf r.1), r.2 / yearlyTotal rows (yearOf r.1))
    else none)

/-- Synthetic weekly demand contributed by one lab forecast to one target week
(services.py lines 1400-1421): inside the forecast's own date range, the annual
figure times the resolved proportion; outside it, nothing. -/
def labWeekAmount (annual : ℚ) (props : List (SeasonalKey × ℚ))
    (fstart fend w : ℤ) : ℚ :=
  if fstart ≤ w ∧ w ≤ fend then
    annual * resolveProportion props (isoWeekOf w) (yearOf w)
  else 0

/-- Product row as the code-resolution queries see it (id and code). -/
structure ProductRec where
  id : ℕ
  code : String
deriving DecidableEq

/-- Client row as the code-resolution queries see it (id and code). -/
structure ClientRec where
  id : ℕ
  code : String
deriving DecidableEq

/-- Django `code__iexact`: case-insensitive code equality. -/
def codeMatches (a b : String) : Bool :=
  a.data.map Char.toUpper == b.data.map Char.toUpper

/-- Product-code resolution of `run_line_simulation` (services.py lines
697-702): `.first()` on a case-insensitive match; an unknown code simply
leaves the product filter unset. -/
def lineResolveProductId (products : List ProductRec) (code : Option String) :
    Option ℕ :=
  match code with
  | none => none
  | some c =>
      match products.find? (fun p => codeMatches p.code c) with
      | some p => some p.id
      | none => none

/-- Client-code resolution of `run_line_simulation` (services.py lines
704-710): unknown codes are dropped from the list. -/
def resolveClientIds (clients : List ClientRec) (codes : List String) : List ℕ :=
  codes.filterMap (fun c =>
    match clients.find? (fun cl => codeMatches cl.code c) with
    | some cl => some cl.id
    | none => none)

/-- Product-code resolution of `run_category_simulation` (services.py lines
1703-1713): the code must match a product inside the category's matching
product set, otherwise the simulation returns an error result. -/
def categoryResolveProductId (products : List ProductRec) (scope : List ℕ)
    (code : Option String) : Except String (Option ℕ) :=
  match code with
  | none => Except.ok none
  | some c =>
      match products.find? (fun p => codeMatches p.code c && scope.contains p.id) with
      | some p => Except.ok (some p.id)
      | none => Except.error ("Product " ++ c ++ " not found or not in category scope")

/-- The worked example's shift configuration: 2 shifts x 8 hours, 5 days. -/
def exampleShiftConfig : ShiftConfiguration :=
  { shifts_per_day := 2
    hours_per_shift := 8
    days_per_week := 5
    includes_saturday := false
    includes_sunday := false }

/-- The worked example of the spec: a line with throughput 1000/hr and
efficiency 0.8. -/
def exampleLine : ProductionLine :=
  { base_capacity_per_hour := 1000
    efficiency_factor := 4 / 5
    default_shift_config := some exampleShiftConfig
    overrides := [] }

/-- Model-level invariants of the stored data (models.py validators:
`base_capacity_per_hour ≥ 0`, `efficiency_factor ∈ [0,1]`, hours per shift
non-negative) for a selected line and every configuration it can resolve. -/
def LineSpecNonneg (ls : LineSpec) : Prop :=
  0 ≤ ls.line.base_capacity_per_hour
  ∧ 0 ≤ ls.line.efficiency_factor
  ∧ (∀ c, ls.uiConfig = some c → 0 ≤ c.hours_per_shift)
  ∧ (∀ c, ls.line.default_shift_config = some c → 0 ≤ c.hours_per_shift)
  ∧ (∀ o ∈ ls.line.overrides, 0 ≤ o.hours_per_shift)

/-- A recurring override used as a concrete instance: weeks 0-5 of the epoch,
every 2 weeks. -/
def biweeklyOverride : LineConfigOverride :=
  { start_date := 0
    end_date := 35
    shifts_per_day := 1
    hours_per_shift := 8
    days_per_week := 5
    include_saturday := false
    include_sunday := false
    is_recurrent := true
    recurrence_weeks := some 2 }

/-- An override whose interval [20, 30] misses the date 10; used as a concrete
instance of a non-matching candidate. -/
def lateOverride : LineConfigOverride :=
  { start_date := 20
    end_date := 30
    shifts_per_day := 3
    hours_per_shift := 8
    days_per_week := 5
    include_saturday := false
    include_sunday := false
    is_recurrent := false
    recurrence_weeks := none }

/-- A line with no default configuration whose only override misses date 10:
configuration resolution fails there. -/
def noDefaultLine : ProductionLine :=
  { base_capacity_per_hour := 100
    efficiency_factor := 1 / 2
    default_shift_config := none
    overrides := [lateOverride] }

/-- One forecast row (client 1, product 1, week starting at day 0, 1000 units)
used by the demand-modification instances. -/
def c4Forecast : DemandForecast :=
  { client_id := 1, product_id := 1, week_start_date := 0, forecast_quantity := 1000 }

/-- A +50% modification for client 1 over the week of day 0. -/
def plus50Mod : DemandModification :=
  { client_id := 1, product_id := none, start_date := 0, end_date := 6, percentage := 50 }

/-- A −100% modification for client 1 over the week of day 0. -/
def minus100Mod : DemandModification :=
  { client_id := 1, product_id := none, start_date := 0, end_date := 6, percentage := -100 }

/-- A seasonality map holding a single share: 3% for ISO week 2 of 1968. -/
def c7Props : List (SeasonalKey × ℚ) := [(((2 : ℕ), (1968 : ℤ)), 3 / 100)]

/-! Helper lemmas shared by the claim theorems. -/

theorem find?_updated_hit (m : DemandMap) (d : ℤ) (v : ℚ)
    (hmem : ∃ p ∈ m, p.1 = d) :
    (m.map (fun p => if p.1 = d then (d, v) else p)).find?
      (fun p => decide (p.1 = d)) = some (d, v) := by
  induction m with
  | nil => simp at hmem
  | cons q rest ih =>
      by_cases hq : q.1 = d
      · simp [hq]
      · rw [List.map_cons, if_neg hq, List.find?_cons_of_neg _ (by simpa using hq)]
        apply ih
        rcases hmem with ⟨p, hp, hpd⟩
        rcases List.mem_cons.mp hp with hpq | hpr
        · exact absurd (hpq ▸ hpd) hq
        · exact ⟨p, hpr, hpd⟩

theorem find?_updated_miss (m : DemandMap) (d x : ℤ) (v : ℚ) (hxd : x ≠ d) :
    (m.map (fun p => if p.1 = d then (d, v) else p)).find?
      (fun p => decide (p.1 = x)) = m.find? (fun p => decide (p.1 = x)) := by
  induction m with
  | nil => rfl
  | cons q rest ih =>
      by_cases hq : q.1 = d
      · rw [List.map_cons, if_pos hq,
          List.find?_cons_of_neg _ (by simpa using Ne.symm hxd),
          List.find?_cons_of_neg _ (by simp [hq]; exact fun h => hxd (h ▸ hq ▸ rfl))]
        exact ih
      · rw [List.map_cons, if_neg hq]
        by_cases hqx : q.1 = x
        · rw [List.find?_cons_of_pos _ (by simpa using hqx),
            List.find?_cons_of_pos _ (by simpa using hqx)]
        · rw [List.find?_cons_of_neg _ (by simpa using hqx),
            List.find?_cons_of_neg _ (by simpa using hqx)]
          exact ih

theorem dmGet_dmSet (m : DemandMap) (d x : ℤ) (v : ℚ) :
    dmGet (dmSet m d v) x = if x = d then v else dmGet m x := by
  unfold dmSet
  split
  · rename_i hmem
    unfold dmContains at hmem
    rw [List.any_eq_true] at hmem
    obtain ⟨p, hp, hpd⟩ := hmem
    simp only [decide_eq_true_eq] at hpd
    by_cases hxd : x = d
    · subst hxd
      unfold dmGet
      rw [find?_updated_hit m x v ⟨p, hp, hpd⟩]
      simp
    · unfold dmGet
      rw [find?_updated_miss m d x v hxd, if_neg hxd]
  · by_cases hxd : x = d
    · subst hxd
      rename_i hmem
      unfold dmContains at hmem
      rw [Bool.not_eq_true, List.any_eq_false] at hmem
      unfold dmGet
      rw [List.find?_append]
      have hnone : m.find? (fun p => decide (p.1 = x)) = none := by
        rw [List.find?_eq_none]
        intro p hp
        simpa using fun h => by simpa [h] using hmem p hp
      rw [hnone, if_pos rfl]
      simp
    · unfold dmGet
      rw [if_neg hxd, List.find?_append]
      have hone : ([(d, v)] : DemandMap).find? (fun p => decide (p.1 = x)) = none := by
        simp [Ne.symm hxd]
      rw [hone]
      cases m.find? (fun p => decide (p.1 = x)) <;> rfl

theorem modifyBucket_nonneg (current amount : ℚ) : 0 ≤ modifyBucket current amount := by
  unfold modifyBucket
  split
  · exact le_refl 0
  · linarith [not_lt.mp (by assumption : ¬ current + amount < 0)]

theorem foldl_preserves {α : Type} (P : DemandMap → Prop)
    (f : DemandMap → α → DemandMap) (hf : ∀ dm a, P dm → P (f dm a)) :
    ∀ (l : List α) (dm : DemandMap), P dm → P (l.foldl f dm) := by
  intro l
  induction l with
  | nil => intro dm h; exact h
  | cons a rest ih => intro dm h; exact ih (f dm a) (hf dm a h)

/-- C1 counterexample: at weekly granularity a bucket with capacity 0 and
demand 50 > 0 gets utilization 0 — a finite percentage equal to the number 0,
not a sentinel — and that 0 enters the average-utilization statistic
(average of such a bucket with a 100%-utilization bucket is 50, not 100). -/
theorem c1_zero_capacity_counterexample :
    utilizationWeekly 50 0 = 0
    ∧ weeklyAverageUtilization [utilizationWeekly 50 0, 100] = 50 := by
  constructor
  · simp [utilizationWeekly]
  · simp [utilizationWeekly, weeklyAverageUtilization, listAverage]
    norm_num

/-- C1 (amended): only `_run_line_simulation_daily` uses the no-capacity
sentinel: with capacity 0 and demand d > 0 the daily utilization is the
sentinel 999, which the daily average and peak statistics exclude; the weekly
simulation (and the category/new-client/lost-client/lab paths sharing its
formula) reports 0 instead and includes it in the statistics. -/
theorem c1_daily_sentinel (d : ℚ) (hd : 0 < d) (us : List ℚ) :
    utilizationDaily d 0 = 999
    ∧ utilizationWeekly d 0 = 0
    ∧ dailyAverageUtilization (999 :: us) = dailyAverageUtilization us
    ∧ dailyPeakUtilization (999 :: us) = dailyPeakUtilization us := by
  refine ⟨?_, ?_, ?_, ?_⟩
  · simp [utilizationDaily, ne_of_gt hd]
  · simp [utilizationWeekly]
  · unfold dailyAverageUtilization validDailyUtilizations
    simp
  · unfold dailyPeakUtilization validDailyUtilizations
    simp

theorem c1_daily_sentinel_witness :
    utilizationDaily 50 0 = 999
    ∧ utilizationWeekly 50 0 = 0
    ∧ dailyAverageUtilization (999 :: [80]) = dailyAverageUtilization [80]
    ∧ dailyPeakUtilization (999 :: [80]) = dailyPeakUtilization [80] :=
  c1_daily_sentinel 50 (by norm_num) [80]

/-- C2: weekly capacity of a line equals
`throughput_per_hour × efficiency × (shifts_per_day × hours_per_shift ×
days_per_week)`; the worked example (1000/hr, efficiency 0.8, 2×8h×5d) gives
weekly hours 80 and capacity 64000, and demand 50000 against it yields
utilization 78.125 — displayed as 78.1 — which is not over capacity. -/
theorem c2_weekly_capacity_formula :
    (∀ (l : ProductionLine) (c : ShiftConfiguration),
        l.get_weekly_capacity_with_config c =
          l.base_capacity_per_hour * l.efficiency_factor *
            ((c.shifts_per_day : ℚ) * c.hours_per_shift * (c.days_per_week : ℚ)))
    ∧ exampleShiftConfig.weekly_hours = 80
    ∧ exampleLine.get_weekly_capacity_with_config exampleShiftConfig = 64000
    ∧ weekBucketCapacity [⟨exampleLine, none⟩] 0 = 64000
    ∧ utilizationWeekly 50000 64000 = 625 / 8
    ∧ round1 (utilizationWeekly 50000 64000) = 781 / 10
    ∧ overCapacity (utilizationWeekly 50000 64000) = false := by
  have hu : utilizationWeekly 50000 64000 = 625 / 8 := by
    norm_num [utilizationWeekly]
  refine ⟨fun l c => rfl, ?_, ?_, ?_, hu, ?_, ?_⟩
  · norm_num [ShiftConfiguration.weekly_hours, exampleShiftConfig]
  · norm_num [ProductionLine.get_weekly_capacity_with_config,
      ShiftConfiguration.weekly_hours, exampleLine, exampleShiftConfig]
  · simp only [weekBucketCapacity, calculate_weekly_capacity, lineWeeklyCapacity,
      ProductionLine.get_weekly_capacity_for_date, getConfigForDate,
      getConfigFromPrefetched, defaultResolved, exampleLine, exampleShiftConfig,
      ShiftConfiguration.weekly_hours, List.map_cons, List.map_nil, List.sum_cons,
      List.sum_nil]
    norm_num
  · rw [hu]
    have hf : Int.floor ((625 : ℚ) / 8 * 10) = 781 := by
      rw [Int.floor_eq_iff]
      norm_num
    unfold round1 roundNearestEven
    rw [hf]
    norm_num
  · rw [hu]
    simp only [overCapacity, decide_eq_false_iff_not, not_lt]
    norm_num

/-- C3: an accepted recurring override must have its interval containing the
date; given that, for a recurrence period k > 0 it is accepted exactly when
`((date - start_date) // 7) % k == 0`; in particular at `start_date + 7·w`
(week W+w of an override starting in week W) it is accepted exactly when
`w % k = 0`, so for k = 2 weeks W, W+2, W+4, … are active and W+1, W+3, …
are not. -/
theorem c3_recurrence_filter (o : LineConfigOverride) (d : ℤ) (k : ℕ)
    (hrec : o.is_recurrent = true) (hk : o.recurrence_weeks = some k)
    (hk0 : k ≠ 0) (h1 : o.start_date ≤ d) (h2 : d ≤ o.end_date) :
    (overrideAccepts o d = true ↔
        (Int.fdiv (d - o.start_date) 7).emod (k : ℤ) = 0)
    ∧ ∀ w : ℕ, o.start_date + 7 * (w : ℤ) ≤ o.end_date →
        (overrideAccepts o (o.start_date + 7 * (w : ℤ)) = true ↔ w % k = 0) := by
  have base : ∀ e : ℤ, o.start_date ≤ e → e ≤ o.end_date →
      (overrideAccepts o e = true ↔
        (Int.fdiv (e - o.start_date) 7).emod (k : ℤ) = 0) := by
    intro e he1 he2
    unfold overrideAccepts recurrenceOk
    rw [hrec, hk]
    simp [he1, he2, hk0]
  refine ⟨base d h1 h2, ?_⟩
  intro w hw
  have he1 : o.start_date ≤ o.start_date + 7 * (w : ℤ) := by
    have : (0 : ℤ) ≤ 7 * (w : ℤ) := by positivity
    linarith
  rw [base (o.start_date + 7 * (w : ℤ)) he1 hw]
  have hdiv : Int.fdiv (o.start_date + 7 * (w : ℤ) - o.start_date) 7 = (w : ℤ) := by
    rw [show o.start_date + 7 * (w : ℤ) - o.start_date = 7 * (w : ℤ) by ring]
    exact Int.mul_fdiv_cancel_left _ (by norm_num)
  rw [hdiv]
  rw [show ((w : ℤ)).emod ((k : ℕ) : ℤ) = ((w % k : ℕ) : ℤ) from
    (Int.natCast_mod w k).symm]
  exact ⟨fun h => by exact_mod_cast h, fun h => by exact_mod_cast h⟩

theorem c3_recurrence_filter_witness :
    (overrideAccepts biweeklyOverride 14 = true ↔
        (Int.fdiv ((14 : ℤ) - biweeklyOverride.start_date) 7).emod ((2 : ℕ) : ℤ) = 0)
    ∧ ∀ w : ℕ, biweeklyOverride.start_date + 7 * (w : ℤ) ≤ biweeklyOverride.end_date →
        (overrideAccepts biweeklyOverride (biweeklyOverride.start_date + 7 * (w : ℤ)) = true
          ↔ w % 2 = 0) :=
  c3_recurrence_filter biweeklyOverride 14 2 rfl rfl (by decide) (by decide) (by decide)

/-- C4 counterexample: week 0 holds the raw forecast total 1000; applying a
+50% modification (running demand 1500) and then a −100% modification for the
same scope leaves demand 500, not 0 — the −100% modification subtracts only
the scope's raw forecast total (1000), and the zero floor never engages. -/
theorem c4_minus100_counterexample :
    dmGet (apply_demand_modifications_weekly [c4Forecast] [1] [0]
        (get_demand_for_lines [c4Forecast] [1] 0 6 none)
        [plus50Mod, minus100Mod]) 0 ≠ 0
    ∧ dmGet (apply_demand_modifications_weekly [c4Forecast] [1] [0]
        (get_demand_for_lines [c4Forecast] [1] 0 6 none)
        [plus50Mod, minus100Mod]) 0 = 500 := by
  have h : dmGet (apply_demand_modifications_weekly [c4Forecast] [1] [0]
      (get_demand_for_lines [c4Forecast] [1] 0 6 none)
      [plus50Mod, minus100Mod]) 0 = 500 := by
    norm_num [apply_demand_modifications_weekly, modAffectedWeeks, modAffectedForecasts,
      get_demand_for_lines, groupDemandByWeek, sumForecasts, get_week_start, weekday,
      dmGet, dmSet, dmContains, modifyBucket, c4Forecast, plus50Mod, minus100Mod,
      List.dedup, List.pwFilter, List.foldl, List.find?, List.contains]
  exact ⟨by rw [h]; norm_num, h⟩

/-- C4 (amended): a −100% modification adds `−(raw scope total)` to the
bucket's running demand and floors at zero, so it zeroes the bucket exactly
when the running demand does not exceed the scope's raw forecast total —
in particular when it is the only modification, as in the third conjunct —
while a larger running demand (e.g. inflated by an earlier positive
modification) is left at `running − total` instead of 0. -/
theorem c4_minus100_behavior (current total : ℚ) :
    (current ≤ total → modifyBucket current (total * ((-100 : ℚ) / 100)) = 0)
    ∧ (total ≤ current → modifyBucket current (total * ((-100 : ℚ) / 100)) = current - total)
    ∧ dmGet (apply_demand_modifications_weekly [c4Forecast] [1] [0]
        (get_demand_for_lines [c4Forecast] [1] 0 6 none) [minus100Mod]) 0 = 0 := by
  have hneg : total * ((-100 : ℚ) / 100) = -total := by ring
  refine ⟨?_, ?_, ?_⟩
  · intro hle
    unfold modifyBucket
    rw [hneg]
    split
    · rfl
    · rename_i hns
      rw [not_lt] at hns
      linarith
  · intro hge
    unfold modifyBucket
    rw [hneg]
    split
    · rename_i hns
      linarith
    · ring
  · norm_num [apply_demand_modifications_weekly, modAffectedWeeks, modAffectedForecasts,
      get_demand_for_lines, groupDemandByWeek, sumForecasts, get_week_start, weekday,
      dmGet, dmSet, dmContains, modifyBucket, c4Forecast, minus100Mod,
      List.dedup, List.pwFilter, List.foldl, List.find?, List.contains]

theorem c4_minus100_behavior_witness :
    modifyBucket 500 (1000 * ((-100 : ℚ) / 100)) = 0 :=
  (c4_minus100_behavior 500 1000).1 (by norm_num)

theorem getConfig_all_rejected (line : ProductionLine) (d : ℤ) :
    ∀ ovs : List LineConfigOverride, (∀ p ∈ ovs, overrideAccepts p d = false) →
      getConfigFromPrefetched line d ovs = defaultResolved line := by
  intro ovs
  induction ovs with
  | nil => intro _; rfl
  | cons o rest ih =>
      intro h
      show (if overrideAccepts o d = true then some (resolvedOfOverride o)
            else getConfigFromPrefetched line d rest) = defaultResolved line
      rw [if_neg (by simp [h o (List.mem_cons_self o rest)])]
      exact ih (fun q hq => h q (List.mem_cons_of_mem _ hq))

/-- C5: configuration resolution scans the prefetched override list (kept in
ascending `start_date` order by the prefetch query) and returns the first
accepted override; when no override is accepted it returns the line's default
configuration; and when the line has no default configuration either it
returns `none`, in which case the line contributes zero daily and weekly
capacity. -/
theorem c5_first_accepted_wins (line : ProductionLine) (d : ℤ) :
    (∀ (pre post : List LineConfigOverride) (o : LineConfigOverride),
        (∀ p ∈ pre, overrideAccepts p d = false) → overrideAccepts o d = true →
        getConfigFromPrefetched line d (pre ++ o :: post) = some (resolvedOfOverride o))
    ∧ ((∀ p ∈ line.overrides, overrideAccepts p d = false) →
        getConfigForDate line d = defaultResolved line)
    ∧ ((∀ p ∈ line.overrides, overrideAccepts p d = false) →
        line.default_shift_config = none →
        getConfigForDate line d = none
        ∧ lineDailyCapacity ⟨line, none⟩ d = 0
        ∧ lineWeeklyCapacity ⟨line, none⟩ d = 0) := by
  have hdflt : ∀ h : line.default_shift_config = none, defaultResolved line = none := by
    intro h
    unfold defaultResolved
    rw [h]
  refine ⟨?_, ?_, ?_⟩
  · intro pre post o hpre hacc
    induction pre with
    | nil =>
        show (if overrideAccepts o d = true then some (resolvedOfOverride o)
              else getConfigFromPrefetched line d post) = some (resolvedOfOverride o)
        rw [if_pos hacc]
    | cons p rest ih =>
        show (if overrideAccepts p d = true then some (resolvedOfOverride p)
              else getConfigFromPrefetched line d (rest ++ o :: post))
            = some (resolvedOfOverride o)
        rw [if_neg (by simp [hpre p (List.mem_cons_self p rest)])]
        exact ih (fun q hq => hpre q (List.mem_cons_of_mem _ hq))
  · intro hall
    exact getConfig_all_rejected line d line.overrides hall
  · intro hall hnone
    have hcfg : getConfigForDate line d = none := by
      unfold getConfigForDate
      rw [getConfig_all_rejected line d line.overrides hall, hdflt hnone]
    refine ⟨hcfg, ?_, ?_⟩
    · unfold lineDailyCapacity
      rw [hcfg]
    · unfold lineWeeklyCapacity ProductionLine.get_weekly_capacity_for_date
      rw [hcfg]

theorem c5_first_accepted_wins_witness :
    getConfigForDate noDefaultLine 10 = none
    ∧ lineDailyCapacity ⟨noDefaultLine, none⟩ 10 = 0
    ∧ lineWeeklyCapacity ⟨noDefaultLine, none⟩ 10 = 0 :=
  (c5_first_accepted_wins noDefaultLine 10).2.2 (by decide) rfl

/-- C8 counterexample: `run_category_simulation` does not silently ignore an
unknown product code — with one in-scope product "ABC", the code "ZZZ" makes
the simulation return an explicit error result instead of running. -/
theorem c8_category_error_counterexample :
    categoryResolveProductId [⟨1, "ABC"⟩] [1] (some "ZZZ")
      = Except.error "Product ZZZ not found or not in category scope" := by
  rfl

/-- C8 (amended): in `run_line_simulation` an unknown product code leaves the
product filter unset and unknown client codes are dropped, so the simulation
runs without them and without an error; but `run_category_simulation` returns
an explicit error result when the product code matches nothing in the
category's product scope. -/
theorem c8_unknown_codes (products : List ProductRec) (clients : List ClientRec)
    (scope : List ℕ) (code : String)
    (hp : ∀ p ∈ products, codeMatches p.code code = false)
    (hc : ∀ cl ∈ clients, codeMatches cl.code code = false) :
    lineResolveProductId products (some code) = none
    ∧ resolveClientIds clients [code] = []
    ∧ categoryResolveProductId products scope (some code)
        = Except.error ("Product " ++ code ++ " not found or not in category scope") := by
  have hfind : products.find? (fun p => codeMatches p.code code) = none :=
    List.find?_eq_none.mpr (fun p hmem => by simp [hp p hmem])
  have hfind2 : ∀ s : List ℕ,
      products.find? (fun p => codeMatches p.code code && s.contains p.id) = none :=
    fun s => List.find?_eq_none.mpr (fun p hmem => by simp [hp p hmem])
  have hcfind : clients.find? (fun cl => codeMatches cl.code code) = none :=
    List.find?_eq_none.mpr (fun cl hmem => by simp [hc cl hmem])
  refine ⟨?_, ?_, ?_⟩
  · show (match products.find? (fun p => codeMatches p.code code) with
          | some p => some p.id
          | none => none) = none
    rw [hfind]
  · unfold resolveClientIds
    simp [List.filterMap, hcfind]
  · show (match products.find? (fun p => codeMatches p.code code && scope.contains p.id) with
          | some p => Except.ok (some p.id)
          | none =>
              Except.error ("Product " ++ code ++ " not found or not in category scope")) =
        Except.error ("Product " ++ code ++ " not found or not in category scope")
    rw [hfind2 scope]

theorem c8_unknown_codes_witness :
    lineResolveProductId [⟨1, "ABC"⟩] (some "ZZZ") = none
    ∧ resolveClientIds [⟨2, "LIDL"⟩] ["ZZZ"] = []
    ∧ categoryResolveProductId [⟨1, "ABC"⟩] [1] (some "ZZZ")
        = Except.error ("Product " ++ "ZZZ" ++ " not found or not in category scope") :=
  c8_unknown_codes [⟨1, "ABC"⟩] [⟨2, "LIDL"⟩] [1] "ZZZ"
    (by intro p hmem; fin_cases hmem; rfl)
    (by intro cl hmem; fin_cases hmem; rfl)

theorem getConfig_fields_nonneg (line : ProductionLine) (d : ℤ) :
    ∀ ovs : List LineConfigOverride, (∀ o ∈ ovs, 0 ≤ o.hours_per_shift) →
      (∀ c, line.default_shift_config = some c → 0 ≤ c.hours_per_shift) →
      ∀ cfg, getConfigFromPrefetched line d ovs = some cfg →
        0 ≤ cfg.hours_per_shift ∧ 0 ≤ cfg.weekly_hours := by
  intro ovs
  induction ovs with
  | nil =>
      intro _ hdef cfg hcfg
      have hbase : defaultResolved line = some cfg := hcfg
      unfold defaultResolved at hbase
      cases hd : line.default_shift_config with
      | none => rw [hd] at hbase; cases hbase
      | some c =>
          rw [hd] at hbase
          injection hbase with h
          subst h
          have hc := hdef c hd
          refine ⟨hc, ?_⟩
          unfold ShiftConfiguration.weekly_hours
          exact mul_nonneg (mul_nonneg (by positivity) hc) (by positivity)
  | cons o rest ih =>
      intro hov hdef cfg hcfg
      have step : getConfigFromPrefetched line d (o :: rest)
          = if overrideAccepts o d = true then some (resolvedOfOverride o)
            else getConfigFromPrefetched line d rest := rfl
      rw [step] at hcfg
      by_cases hacc : overrideAccepts o d = true
      · rw [if_pos hacc] at hcfg
        injection hcfg with h
        subst h
        have ho := hov o (List.mem_cons_self o rest)
        refine ⟨ho, ?_⟩
        unfold resolvedOfOverride LineConfigOverride.weekly_hours
        exact mul_nonneg (mul_nonneg (by positivity) ho) (by positivity)
      · rw [if_neg hacc] at hcfg
        exact ih (fun q hq => hov q (List.mem_cons_of_mem _ hq)) hdef cfg hcfg

theorem lineDailyCapacity_nonneg (ls : LineSpec) (d : ℤ)
    (h : LineSpecNonneg ls) : 0 ≤ lineDailyCapacity ls d := by
  obtain ⟨hbase, heff, hui, hdef, hov⟩ := h
  cases hu : ls.uiConfig with
  | some c =>
      simp only [lineDailyCapacity, hu]
      split
      · exact le_refl 0
      · exact mul_nonneg (mul_nonneg hbase
          (mul_nonneg (by positivity) (hui c hu))) heff
  | none =>
      simp only [lineDailyCapacity, hu]
      cases hcfg : getConfigForDate ls.line d with
      | none => simp only [hcfg]; exact le_refl 0
      | some rc =>
          obtain ⟨hh, _⟩ :=
            getConfig_fields_nonneg ls.line d ls.line.overrides hov hdef rc hcfg
          simp only [hcfg]
          split
          · exact le_refl 0
          · exact mul_nonneg (mul_nonneg hbase
              (mul_nonneg (by positivity) hh)) heff

theorem lineWeeklyCapacity_nonneg (ls : LineSpec) (d : ℤ)
    (h : LineSpecNonneg ls) : 0 ≤ lineWeeklyCapacity ls d := by
  obtain ⟨hbase, heff, hui, hdef, hov⟩ := h
  cases hu : ls.uiConfig with
  | some c =>
      simp only [lineWeeklyCapacity, hu, ProductionLine.get_weekly_capacity_with_config]
      have hc := hui c hu
      have hw : 0 ≤ c.weekly_hours := by
        unfold ShiftConfiguration.weekly_hours
        exact mul_nonneg (mul_nonneg (by positivity) hc) (by positivity)
      exact mul_nonneg (mul_nonneg hbase heff) hw
  | none =>
      simp only [lineWeeklyCapacity, hu, ProductionLine.get_weekly_capacity_for_date]
      cases hcfg : getConfigForDate ls.line d with
      | none => simp only [hcfg]; exact le_refl 0
      | some rc =>
          obtain ⟨_, hw⟩ :=
            getConfig_fields_nonneg ls.line d ls.line.overrides hov hdef rc hcfg
          simp only [hcfg]
          exact mul_nonneg (mul_nonneg hbase heff) hw

theorem apply_weekly_nonneg (forecasts : List DemandForecast)
    (validProductIds : List ℕ) (weeks : List ℤ) (demand : DemandMap)
    (mods : List DemandModification) (hd : ∀ x, 0 ≤ dmGet demand x) :
    ∀ x, 0 ≤ dmGet (apply_demand_modifications_weekly forecasts validProductIds
      weeks demand mods) x := by
  unfold apply_demand_modifications_weekly
  refine foldl_preserves (fun dm => ∀ x, 0 ≤ dmGet dm x) _ ?_ mods demand hd
  intro dm m hdm
  refine foldl_preserves (fun dm => ∀ x, 0 ≤ dmGet dm x) _ ?_ _ dm hdm
  intro dm2 wt h2 x
  split
  · rw [dmGet_dmSet]
    split
    · exact modifyBucket_nonneg _ _
    · exact h2 x
  · exact h2 x

theorem apply_daily_nonneg (forecasts : List DemandForecast)
    (validProductIds : List ℕ) (demand : DemandMap)
    (mods : List DemandModification) (hd : ∀ x, 0 ≤ dmGet demand x) :
    ∀ x, 0 ≤ dmGet (apply_demand_modifications_daily forecasts validProductIds
      demand mods) x := by
  unfold apply_demand_modifications_daily
  refine foldl_preserves (fun dm => ∀ x, 0 ≤ dmGet dm x) _ ?_ mods demand hd
  intro dm m hdm
  refine foldl_preserves (fun dm => ∀ x, 0 ≤ dmGet dm x) _ ?_ _ dm hdm
  intro dm2 wt h2
  refine foldl_preserves (fun dm => ∀ x, 0 ≤ dmGet dm x) _ ?_ _ dm2 h2
  intro dm3 off h3 x
  dsimp only
  split
  · rw [dmGet_dmSet]
    split
    · exact modifyBucket_nonneg _ _
    · exact h3 x
  · exact h3 x

/-- C6: with the model-level invariants (non-negative throughput, efficiency
and hours), every bucket's capacity is non-negative at both granularities, and
a demand map whose values are non-negative stays value-wise non-negative after
`apply_demand_modifications_weekly` / `_daily` — each addition is immediately
followed by the zero clamp, so no negative demand is ever propagated. -/
theorem c6_capacity_demand_nonneg (lines : List LineSpec)
    (forecasts : List DemandForecast) (validProductIds : List ℕ)
    (weeks : List ℤ) (demandW demandD : DemandMap)
    (modsW modsD : List DemandModification) (d w : ℤ)
    (hl : ∀ ls ∈ lines, LineSpecNonneg ls)
    (hdW : ∀ x, 0 ≤ dmGet demandW x) (hdD : ∀ x, 0 ≤ dmGet demandD x) :
    0 ≤ calculate_daily_capacity lines d
    ∧ 0 ≤ weekBucketCapacity lines w
    ∧ (∀ x, 0 ≤ dmGet (apply_demand_modifications_weekly forecasts
        validProductIds weeks demandW modsW) x)
    ∧ (∀ x, 0 ≤ dmGet (apply_demand_modifications_daily forecasts
        validProductIds demandD modsD) x) := by
  refine ⟨?_, ?_, ?_, ?_⟩
  · unfold calculate_daily_capacity
    apply List.sum_nonneg
    intro x hx
    obtain ⟨ls, hls, rfl⟩ := List.mem_map.mp hx
    exact lineDailyCapacity_nonneg ls d (hl ls hls)
  · unfold weekBucketCapacity calculate_weekly_capacity
    apply List.sum_nonneg
    intro x hx
    obtain ⟨ls, hls, rfl⟩ := List.mem_map.mp hx
    exact lineWeeklyCapacity_nonneg ls (w + 3) (hl ls hls)
  · exact apply_weekly_nonneg forecasts validProductIds weeks demandW modsW hdW
  · exact apply_daily_nonneg forecasts validProductIds demandD modsD hdD

theorem c6_capacity_demand_nonneg_witness :
    0 ≤ calculate_daily_capacity [⟨exampleLine, none⟩] 0
    ∧ 0 ≤ weekBucketCapacity [⟨exampleLine, none⟩] 0
    ∧ (∀ x, 0 ≤ dmGet (apply_demand_modifications_weekly [c4Forecast] [1]
        [0] [] [minus100Mod]) x)
    ∧ (∀ x, 0 ≤ dmGet (apply_demand_modifications_daily [c4Forecast] [1]
        [] [minus100Mod]) x) :=
  c6_capacity_demand_nonneg [⟨exampleLine, none⟩] [c4Forecast] [1] [0] [] []
    [minus100Mod] [minus100Mod] 0 0
    (by
      intro ls hls
      fin_cases hls
      refine ⟨by norm_num [exampleLine], by norm_num [exampleLine], ?_, ?_, ?_⟩
      · intro c hc
        cases hc
      · intro c hc
        injection hc with h
        subst h
        norm_num [exampleShiftConfig]
      · intro o ho
        cases ho)
    (fun x => le_refl 0) (fun x => le_refl 0)

/-- C7: inside the lab forecast's date range, a target week's synthetic demand
is the annual figure times the resolved proportion for the week's
(ISO-week-number, year); and the resolved proportion is the share for that
exact key when present, else the first share found for the same week number in
the four preceding years in descending order, else `1 / 52`. -/
theorem c7_seasonality_fallback (props : List (SeasonalKey × ℚ)) (annual : ℚ)
    (fstart fend w : ℤ) (h1 : fstart ≤ w) (h2 : w ≤ fend) :
    labWeekAmount annual props fstart fend w
      = annual * resolveProportion props (isoWeekOf w) (yearOf w)
    ∧ ∀ (wk : ℕ) (yr : ℤ),
        resolveProportion props wk yr =
          (((((lookupProportion props wk yr).orElse
              (fun _ => lookupProportion props wk (yr - 1))).orElse
              (fun _ => lookupProportion props wk (yr - 2))).orElse
              (fun _ => lookupProportion props wk (yr - 3))).orElse
              (fun _ => lookupProportion props wk (yr - 4))).getD (1 / 52) := by
  constructor
  · unfold labWeekAmount
    rw [if_pos ⟨h1, h2⟩]
  · intro wk yr
    simp only [resolveProportion, fallbackProportion,
      show List.range 4 = [0, 1, 2, 3] from rfl,
      List.map_cons, List.map_nil, List.findSome?]
    push_cast
    rw [show yr - 1 - (0 : ℤ) = yr - 1 by ring, show yr - 1 - (1 : ℤ) = yr - 2 by ring,
      show yr - 1 - (2 : ℤ) = yr - 3 by ring, show yr - 1 - (3 : ℤ) = yr - 4 by ring]
    cases h0 : lookupProportion props wk yr with
    | some p => simp [h0]
    | none =>
        cases hA : lookupProportion props wk (yr - 1) with
        | some p => simp [h0, hA, Option.orElse]
        | none =>
            cases hB : lookupProportion props wk (yr - 2) with
            | some p => simp [h0, hA, hB, Option.orElse]
            | none =>
                cases hC : lookupProportion props wk (yr - 3) with
                | some p => simp [h0, hA, hB, hC, Option.orElse]
                | none =>
                    cases hD : lookupProportion props wk (yr - 4) with
                    | some p => simp [h0, hA, hB, hC, hD, Option.orElse]
                    | none => simp [h0, hA, hB, hC, hD, Option.orElse]

theorem c7_seasonality_fallback_witness :
    labWeekAmount 52000 c7Props 0 100 4
      = 52000 * resolveProportion c7Props (isoWeekOf 4) (yearOf 4) :=
  (c7_seasonality_fallback c7Props 52000 0 100 4 (by decide) (by decide)).1

theorem dmGet_distributeDay_ne (s e : ℤ) (total : ℚ) (dm : DemandMap)
    (day x : ℤ) (h : x ≠ day) :
    dmGet (distributeDay s e total dm day) x = dmGet dm x := by
  unfold distributeDay
  split
  · rw [dmGet_dmSet, if_neg h]
  · rfl

theorem dmGet_distributeDay_eq (s e : ℤ) (total : ℚ) (dm : DemandMap)
    (day : ℤ) (h1 : s ≤ day) (h2 : day ≤ e) :
    dmGet (distributeDay s e total dm day) day = total / 5 := by
  unfold distributeDay
  rw [if_pos ⟨h1, h2⟩, dmGet_dmSet, if_pos rfl]

theorem dmGet_days_untouched (s e : ℤ) (total : ℚ) (wstart x : ℤ) :
    ∀ (offs : List ℕ) (dm : DemandMap), (∀ off ∈ offs, x ≠ wstart + (off : ℤ)) →
      dmGet (offs.foldl
        (fun (dm : DemandMap) (off : ℕ) =>
          distributeDay s e total dm (wstart + (off : ℤ))) dm) x
      = dmGet dm x := by
  intro offs
  induction offs with
  | nil => intro dm _; rfl
  | cons o rest ih =>
      intro dm h
      rw [List.foldl_cons, ih _ (fun q hq => h q (List.mem_cons_of_mem _ hq)),
        dmGet_distributeDay_ne s e total dm _ x (h o (List.mem_cons_self o rest))]

theorem dmGet_days_hit (s e : ℤ) (total : ℚ) (wstart : ℤ) (off : ℕ) :
    ∀ (offs : List ℕ) (dm : DemandMap), offs.Nodup → off ∈ offs →
      s ≤ wstart + (off : ℤ) → wstart + (off : ℤ) ≤ e →
      dmGet (offs.foldl
        (fun (dm : DemandMap) (off : ℕ) =>
          distributeDay s e total dm (wstart + (off : ℤ))) dm)
        (wstart + (off : ℤ))
      = total / 5 := by
  intro offs
  induction offs with
  | nil => intro dm _ hmem; cases hmem
  | cons o rest ih =>
      intro dm hnodup hmem h1 h2
      rw [List.foldl_cons]
      rcases List.mem_cons.mp hmem with heq | hmem2
      · subst heq
        rw [dmGet_days_untouched s e total wstart _ rest _ ?_]
        · exact dmGet_distributeDay_eq s e total dm _ h1 h2
        · intro q hq
          have hqo : q ≠ off := fun hqe => (List.nodup_cons.mp hnodup).1 (hqe ▸ hq)
          intro hcontra
          have : (off : ℤ) = (q : ℤ) := by omega
          exact hqo (by exact_mod_cast this.symm)
      · exact ih _ (List.nodup_cons.mp hnodup).2 hmem2 h1 h2

theorem dmGet_weeks_untouched (s e : ℤ) (x : ℤ) :
    ∀ (wl : List (ℤ × ℚ)) (dm : DemandMap),
      (∀ wt ∈ wl, ∀ off : ℕ, off < 5 → x ≠ wt.1 + (off : ℤ)) →
      dmGet (wl.foldl (distributeWeek s e) dm) x = dmGet dm x := by
  intro wl
  induction wl with
  | nil => intro dm _; rfl
  | cons w0 rest ih =>
      intro dm h
      rw [List.foldl_cons, ih _ (fun q hq => h q (List.mem_cons_of_mem _ hq))]
      unfold distributeWeek
      exact dmGet_days_untouched s e w0.2 w0.1 x (List.range 5) dm
        (fun off hoff => h w0 (List.mem_cons_self w0 rest) off (List.mem_range.mp hoff))

theorem dmGet_weeks_hit (s e : ℤ) :
    ∀ (wl : List (ℤ × ℚ)) (dm : DemandMap) (wt : ℤ × ℚ) (off : ℕ),
      wt ∈ wl → off < 5 →
      (∀ a ∈ wl, weekday a.1 = 0) → wl.Pairwise (fun a b => a.1 ≠ b.1) →
      s ≤ wt.1 + (off : ℤ) → wt.1 + (off : ℤ) ≤ e →
      dmGet (wl.foldl (distributeWeek s e) dm) (wt.1 + (off : ℤ)) = wt.2 / 5 := by
  intro wl
  induction wl with
  | nil => intro dm wt off hmem; cases hmem
  | cons w0 rest ih =>
      intro dm wt off hmem hoff hmon hpw h1 h2
      rw [List.foldl_cons]
      rcases List.mem_cons.mp hmem with heq | hmem2
      · subst heq
        rw [dmGet_weeks_untouched s e _ rest _ ?_]
        · unfold distributeWeek
          exact dmGet_days_hit s e wt.2 wt.1 off (List.range 5) dm
            (List.nodup_range 5) (List.mem_range.mpr hoff) h1 h2
        · intro q hq off2 hoff2
          have hqw : wt.1 ≠ q.1 := (List.pairwise_cons.mp hpw).1 q hq
          have hmon0 : weekday wt.1 = 0 := hmon wt (List.mem_cons_self wt rest)
          have hmonq : weekday q.1 = 0 := hmon q (List.mem_cons_of_mem _ hq)
          unfold weekday at hmon0 hmonq
          intro hcontra
          omega
      · exact ih _ wt off hmem2 hoff
          (fun a ha => hmon a (List.mem_cons_of_mem _ ha))
          (List.pairwise_cons.mp hpw).2 h1 h2

/-- C9: at daily granularity each week's total is assigned as one fifth of the
weekly total to each of the five weekday offsets 0..4 from the week's Monday
that lie inside the simulation range, and days whose weekday is Saturday (5)
or Sunday (6) receive no forecast demand at all — the five weekdays are fixed,
independent of any working-day configuration. -/
theorem c9_daily_distribution (weekly : DemandMap) (s e : ℤ)
    (hmon : ∀ wt ∈ weekly, weekday wt.1 = 0)
    (hdist : weekly.Pairwise (fun a b => a.1 ≠ b.1)) :
    (∀ wt ∈ weekly, ∀ off : ℕ, off < 5 →
        s ≤ wt.1 + (off : ℤ) → wt.1 + (off : ℤ) ≤ e →
        dmGet (distributeWeeklyDemandDaily weekly s e) (wt.1 + (off : ℤ)) = wt.2 / 5)
    ∧ (∀ d : ℤ, weekday d = 5 ∨ weekday d = 6 →
        dmGet (distributeWeeklyDemandDaily weekly s e) d = 0) := by
  constructor
  · intro wt hwt off hoff h1 h2
    unfold distributeWeeklyDemandDaily
    exact dmGet_weeks_hit s e weekly [] wt off hwt hoff hmon hdist h1 h2
  · intro d hd
    unfold distributeWeeklyDemandDaily
    rw [dmGet_weeks_untouched s e d weekly [] ?_]
    · rfl
    · intro wt hwt off hoff
      have hmonw : weekday wt.1 = 0 := hmon wt hwt
      unfold weekday at hmonw hd
      intro hcontra
      rcases hd with hd | hd <;> omega

theorem c9_daily_distribution_witness :
    dmGet (distributeWeeklyDemandDaily [((4 : ℤ), (1000 : ℚ))] 4 10) (4 + ((0 : ℕ) : ℤ))
      = 1000 / 5
    ∧ dmGet (distributeWeeklyDemandDaily [((4 : ℤ), (1000 : ℚ))] 4 10) 9 = 0 :=
  ⟨(c9_daily_distribution [((4 : ℤ), (1000 : ℚ))] 4 10
      (by intro wt hwt; rw [List.mem_singleton] at hwt; subst hwt; rfl) (by simp)).1
      ((4 : ℤ), (1000 : ℚ)) (by simp) 0 (by norm_num) (by norm_num) (by norm_num),
   (c9_daily_distribution [((4 : ℤ), (1000 : ℚ))] 4 10
      (by intro wt hwt; rw [List.mem_singleton] at hwt; subst hwt; rfl) (by simp)).2 9 (by decide)⟩

theorem getConfig_skip (l : ProductionLine) (d : ℤ) (o : LineConfigOverride)
    (ho : overrideAccepts o d = false) :
    ∀ pre post, getConfigFromPrefetched l d (pre ++ o :: post)
      = getConfigFromPrefetched l d (pre ++ post) := by
  intro pre
  induction pre with
  | nil =>
      intro post
      show (if overrideAccepts o d = true then some (resolvedOfOverride o)
            else getConfigFromPrefetched l d post) = getConfigFromPrefetched l d post
      rw [if_neg (by simp [ho])]
  | cons p rest ih =>
      intro post
      show (if overrideAccepts p d = true then some (resolvedOfOverride p)
            else getConfigFromPrefetched l d (rest ++ o :: post))
          = (if overrideAccepts p d = true then some (resolvedOfOverride p)
            else getConfigFromPrefetched l d (rest ++ post))
      by_cases hp : overrideAccepts p d = true
      · rw [if_pos hp, if_pos hp]
      · rw [if_neg hp, if_neg hp]
        exact ih post

theorem getConfig_congr_default (l1 l2 : ProductionLine)
    (h : l1.default_shift_config = l2.default_shift_config) (d : ℤ) :
    ∀ ovs, getConfigFromPrefetched l1 d ovs = getConfigFromPrefetched l2 d ovs := by
  intro ovs
  induction ovs with
  | nil =>
      show defaultResolved l1 = defaultResolved l2
      unfold defaultResolved
      rw [h]
  | cons o rest ih =>
      show (if overrideAccepts o d = true then some (resolvedOfOverride o)
            else getConfigFromPrefetched l1 d rest)
          = (if overrideAccepts o d = true then some (resolvedOfOverride o)
            else getConfigFromPrefetched l2 d rest)
      by_cases hp : overrideAccepts o d = true
      · rw [if_pos hp, if_pos hp]
      · rw [if_neg hp, if_neg hp]
        exact ih

/-- C10: a week bucket's capacity and `has_override` flag at weekly granularity
depend only on the configuration resolved at the probe date `week_start + 3`
(the Thursday of a Monday-started week): inserting an override whose interval
does not contain that probe date anywhere in a line's override list changes
neither the bucket's capacity nor its `has_override` flag, even if the
override covers other days of the same week. -/
theorem c10_thursday_probe (others1 others2 : List LineSpec)
    (line : ProductionLine) (ui : Option ShiftConfiguration)
    (pre post : List LineConfigOverride) (o : LineConfigOverride) (w : ℤ)
    (hmiss : ¬ (o.start_date ≤ w + 3 ∧ w + 3 ≤ o.end_date)) :
    weekBucketCapacity
        (others1 ++ ⟨{ line with overrides := pre ++ o :: post }, ui⟩ :: others2) w
      = weekBucketCapacity
        (others1 ++ ⟨{ line with overrides := pre ++ post }, ui⟩ :: others2) w
    ∧ weekHasOverride
        (others1 ++ ⟨{ line with overrides := pre ++ o :: post }, ui⟩ :: others2) w
      = weekHasOverride
        (others1 ++ ⟨{ line with overrides := pre ++ post }, ui⟩ :: others2) w
    ∧ (weekday w = 0 → weekday (w + 3) = 3) := by
  have hacc : overrideAccepts o (w + 3) = false := by
    rcases not_and_or.mp hmiss with h | h
    · unfold overrideAccepts
      rw [decide_eq_false h]
      simp
    · unfold overrideAccepts
      rw [decide_eq_false h]
      simp
  have hkey : getConfigForDate { line with overrides := pre ++ o :: post } (w + 3)
      = getConfigForDate { line with overrides := pre ++ post } (w + 3) := by
    show getConfigFromPrefetched { line with overrides := pre ++ o :: post } (w + 3)
          (pre ++ o :: post)
        = getConfigFromPrefetched { line with overrides := pre ++ post } (w + 3)
          (pre ++ post)
    rw [getConfig_skip _ _ o hacc pre post]
    apply getConfig_congr_default
    rfl
  have hmid : lineWeeklyCapacity ⟨{ line with overrides := pre ++ o :: post }, ui⟩ (w + 3)
      = lineWeeklyCapacity ⟨{ line with overrides := pre ++ post }, ui⟩ (w + 3) := by
    cases ui with
    | some c => rfl
    | none =>
        show ProductionLine.get_weekly_capacity_for_date _ (w + 3)
            = ProductionLine.get_weekly_capacity_for_date _ (w + 3)
        unfold ProductionLine.get_weekly_capacity_for_date
        rw [hkey]
  refine ⟨?_, ?_, ?_⟩
  · unfold weekBucketCapacity calculate_weekly_capacity
    rw [List.map_append, List.map_append, List.map_cons, List.map_cons, hmid]
  · unfold weekHasOverride
    rw [List.any_append, List.any_append, List.any_cons, List.any_cons, hkey]
  · intro h
    unfold weekday at h ⊢
    omega

theorem c10_thursday_probe_witness :
    weekBucketCapacity [⟨{ exampleLine with overrides := [lateOverride] }, none⟩] 4
      = weekBucketCapacity [⟨{ exampleLine with overrides := [] }, none⟩] 4
    ∧ weekHasOverride [⟨{ exampleLine with overrides := [lateOverride] }, none⟩] 4
      = weekHasOverride [⟨{ exampleLine with overrides := [] }, none⟩] 4 :=
  ⟨(c10_thursday_probe [] [] exampleLine none [] [] lateOverride 4 (by decide)).1,
   (c10_thursday_probe [] [] exampleLine none [] [] lateOverride 4 (by decide)).2.1⟩

end Cerelia
